import Mathlib

/-!
A shallow embedding of `src/storage.rs` from `dacut/letsencrypt-certs-aws`,
the certificate-storage core of a Let's Encrypt-to-AWS lambda.

Modelling conventions:
* Rust `Result<T, LambdaError>` becomes `Except LambdaError T`.
* A Rust panic (`unwrap`/`expect` on `None`, out-of-bounds `Vec` index,
  `unimplemented!()`) is modelled by an outer `Option` layer: `none` is the
  panic, `some r` is the function returning `r`.
* The AWS SDK clients (rusoto) are opaque capability providers; each network
  call's response is drawn from an explicit environment record, so a function
  of the environment describes all possible behaviours of the async code.
* `FuturesUnordered` completes futures in an unspecified order.  Wherever the
  source consumes such a stream, the embedding takes the completion order as
  an explicit parameter (a reordering function or an index permutation), and
  theorems quantify over all valid completion orders.
* Rust machine integers do not overflow in this file's arithmetic (lengths of
  in-memory lists), so `Nat` is used directly.
* The PEM payload strings are threaded where they influence observable data
  (parameter values, names) and elided where they are only copied verbatim
  into opaque request bodies whose responses the environment already
  determines (the ACM import calls).
-/

namespace LetsEncryptCertsAws

/-- String constants from `constants.rs` (ACM certificate status and type
tokens, fixed by the AWS API). -/
def ACM_STATUS_ISSUED : String := "ISSUED"

def ACM_STATUS_EXPIRED : String := "EXPIRED"

def ACM_TYPE_IMPORTED : String := "IMPORTED"

/-- The error side of `Result<_, LambdaError>` as this module produces it:
the constructors of `errors.rs` used by `storage.rs`, plus `awsError` for a
boxed rusoto error (`Box::new(e)`) whose payload we keep as its message. -/
inductive LambdaError where
  | invalidAcmConfiguration (msg : String)
  | invalidAcmCertificateArn (arn : String)
  | invalidS3Bucket (bucket : String)
  | invalidSsmParameterPath (path : String)
  | unexpectedAwsResponse (msg : String)
  | awsError (msg : String)
deriving DecidableEq, Repr

/-- `AcmStorageResult` (storage.rs:551): the ARN of the saved certificate. -/
structure AcmStorageResult where
  certificate_arn : String
deriving DecidableEq, Repr

/-- `SsmParameterStorageResult` (storage.rs:626): four parameter names and
four parameter ARNs. -/
structure SsmParameterStorageResult where
  cert_param : String
  chain_param : String
  fullchain_param : String
  pkey_param : String
  cert_arn : String
  chain_arn : String
  fullchain_arn : String
  pkey_arn : String
deriving DecidableEq, Repr

/-- `S3StorageResult` (storage.rs:578). Its producer is `unimplemented!()`
upstream; the shape is kept for the result union. -/
structure S3StorageResult where
  bucket : String
  certificate : String
  chain : String
  full_chain : String
  private_key : String
deriving DecidableEq, Repr

/-- `CertificateStorageResult` (storage.rs:533): tagged union of per-target
save outcomes; `error` is the `Error(String)` sentinel variant. -/
inductive CertificateStorageResult where
  | acm (r : AcmStorageResult)
  | s3 (r : S3StorageResult)
  | ssmParameter (r : SsmParameterStorageResult)
  | error (message : String)
deriving DecidableEq, Repr

/-- `AcmStorage` (storage.rs:84): certificate-manager backend configuration. -/
structure AcmStorage where
  certificate_arns : Option (List String)
  force_new_import : Bool
deriving DecidableEq, Repr

/-- `SsmParameterStorage` (storage.rs:411): parameter-store backend
configuration. -/
structure SsmParameterStorage where
  path : String
deriving DecidableEq, Repr

/-- `S3Storage` (storage.rs:355): object-store backend configuration. -/
structure S3Storage where
  bucket : String
  /-- the Rust field is named `prefix`, a reserved word in Lean -/
  prefix_ : String
  region : Option String
deriving DecidableEq, Repr

/-- `CertificateStorage` (storage.rs:30): the tagged union of backend
configurations routed by the dispatcher. -/
inductive CertificateStorage where
  | acm (s : AcmStorage)
  | s3 (s : S3Storage)
  | ssmParameter (s : SsmParameterStorage)
deriving DecidableEq, Repr

/-- Dependency model: the region names accepted by rusoto_core's
`Region::from_str` (its `FromStr` lowercases the input and matches the
hyphenated or squashed spelling of each known region; anything else is a
parse error). -/
def knownRegionTokens : List String :=
  [ "af-south-1", "afsouth1", "ap-east-1", "apeast1",
    "ap-northeast-1", "apnortheast1", "ap-northeast-2", "apnortheast2",
    "ap-northeast-3", "apnortheast3", "ap-south-1", "apsouth1",
    "ap-southeast-1", "apsoutheast1", "ap-southeast-2", "apsoutheast2",
    "ca-central-1", "cacentral1", "eu-central-1", "eucentral1",
    "eu-west-1", "euwest1", "eu-west-2", "euwest2", "eu-west-3", "euwest3",
    "eu-north-1", "eunorth1", "eu-south-1", "eusouth1",
    "me-south-1", "mesouth1", "sa-east-1", "saeast1",
    "us-east-1", "useast1", "us-east-2", "useast2",
    "us-west-1", "uswest1", "us-west-2", "uswest2",
    "us-gov-east-1", "usgoveast1", "us-gov-west-1", "usgovwest1",
    "cn-north-1", "cnnorth1", "cn-northwest-1", "cnnorthwest1" ]

/-- Rust `str::split(':')` at the character level (structural recursion on
the character list, so that proofs can evaluate it): split into groups at
every separator, keeping empty groups. -/
def splitCharsOn (sep : Char) : List Char → List (List Char)
  | [] => [[]]
  | c :: rest =>
    let groups := splitCharsOn sep rest
    if c == sep then [] :: groups
    else
      match groups with
      | [] => [[c]]
      | g :: gs => (c :: g) :: gs

/-- `arn_str.split(':').collect::<Vec<&str>>()`. -/
def splitColon (s : String) : List String :=
  (splitCharsOn ':' s.toList).map (fun cs => String.mk cs)

/-- Rust `str::to_lowercase` for the ASCII data handled here (character-wise
lowercasing). -/
def lowerString (s : String) : String :=
  String.mk (s.toList.map Char.toLower)

/-- Rust `str::starts_with` (byte/char prefix test). -/
def startsWithStr (s p : String) : Bool :=
  p.toList.isPrefixOf s.toList

/-- `Region::from_str(region_str).is_ok()`: whether a region token resolves. -/
def regionFromStrOk (s : String) : Bool :=
  knownRegionTokens.contains (lowerString s)

/-- The per-identifier structural check of `AcmStorage::validate`
(storage.rs:102-116): split on `:`; require 6 parts, `arn` / non-empty
partition / `acm` literals, a 12-byte account field, a
`certificate/`-prefixed resource part, and a resolvable region token.
Rust `str::len` counts bytes, hence `utf8ByteSize`. -/
def acmArnShapeOk (arn : String) : Bool :=
  let parts := splitColon arn
  parts.length == 6
    && parts.getD 0 "" == "arn"
    && (parts.getD 1 "").utf8ByteSize > 0
    && parts.getD 2 "" == "acm"
    && (parts.getD 4 "").utf8ByteSize == 12
    && startsWithStr (parts.getD 5 "") "certificate/"
    && regionFromStrOk (parts.getD 3 "")

/-- The `for arn_str in existing_arns` loop of `AcmStorage::validate`
(storage.rs:102-118): returns the first identifier failing the structural
check, as an error, else `ok`. -/
def validateArns : List String → Except LambdaError Unit
  | [] => .ok ()
  | arn :: rest =>
    if acmArnShapeOk arn then validateArns rest
    else .error (.invalidAcmCertificateArn arn)

/-- `AcmStorage::validate` (storage.rs:94-122). -/
def AcmStorage.validate (s : AcmStorage) : Except LambdaError Unit :=
  match s.certificate_arns with
  | none => .ok ()
  | some existing_arns =>
    if s.force_new_import then
      .error (.invalidAcmConfiguration "Cannot specify CertificateArn and ForceNewImport")
    else
      validateArns existing_arns

/-- Modelled from the spec: the identifier shape the spec's testable property
asks about — `arn:<partition>:acm:<region>:<12-digit-account>:certificate/<id>`
with a resolvable region.  It differs from `acmArnShapeOk` (the code's check)
in requiring the account field's twelve characters to be digits. -/
def specArnShapeOk (arn : String) : Bool :=
  let parts := splitColon arn
  parts.length == 6
    && parts.getD 0 "" == "arn"
    && (parts.getD 1 "").utf8ByteSize > 0
    && parts.getD 2 "" == "acm"
    && (parts.getD 4 "").length == 12
    && (parts.getD 4 "").toList.all Char.isDigit
    && startsWithStr (parts.getD 5 "") "certificate/"
    && regionFromStrOk (parts.getD 3 "")

/-- The fields of rusoto's `CertificateSummary` read by the matching engine. -/
structure CertificateSummary where
  domain_name : Option String
  certificate_arn : Option String
deriving DecidableEq, Repr

/-- The fields of rusoto's `CertificateDetail` read by the matching engine
(`type_` is the certificate origin: `IMPORTED` / `AMAZON_ISSUED` / ...). -/
structure CertificateDetail where
  type_ : Option String
  subject_alternative_names : Option (List String)
  certificate_arn : Option String
deriving DecidableEq, Repr

/-- Lexicographic `≤` on code-point lists, modelling Rust's `str` ordering
(for ASCII data Rust's byte order and code-point order agree). -/
def charListLe : List Char → List Char → Bool
  | [], _ => true
  | _ :: _, [] => false
  | a :: as, b :: bs =>
    if a.toNat < b.toNat then true
    else if b.toNat < a.toNat then false
    else charListLe as bs

/-- `≤` on strings as Rust compares them. -/
def strLe (a b : String) : Bool :=
  charListLe a.toList b.toList

/-- Stable insertion sort with `strLe`, modelling `Vec<String>::sort()`. -/
def insertSorted (a : String) : List String → List String
  | [] => [a]
  | b :: rest => if strLe a b then a :: b :: rest else b :: insertSorted a rest

/-- `Vec<String>::sort()`. -/
def sortStrings : List String → List String
  | [] => []
  | a :: rest => insertSorted a (sortStrings rest)

/-- The environment for `AcmStorage` save operations: every AWS response the
code can observe, one field per call site.

* `list_pages` models the paginated `list_certificates` loop (the request
  carries `certificate_statuses = [ISSUED, EXPIRED]`, so the pages hold only
  summaries of certificates in those statuses); each page is either a rusoto
  error or an optional `certificate_summary_list`.
* `describe` gives each `describe_certificate` call's response.
* `describeCompletion` is the unspecified completion order of the describe
  `FuturesUnordered` fan-out: a reordering of the submitted candidate list.
* `createOutcome` is the `import_certificate` response for a fresh import
  (no target ARN): error, or a response with optional `certificate_arn`.
* `importOutcome` gives each targeted reimport's `import_certificate`
  response, keyed by the target ARN of the request.
* `reimportPerm` is the unspecified completion order of the reimport
  `FuturesUnordered` fan-out: the list of original task indices in the order
  the tasks complete. -/
structure AcmEnv where
  list_pages : List (Except String (Option (List CertificateSummary)))
  describe : String → Except String (Option CertificateDetail)
  describeCompletion : List String → List String
  createOutcome : Except String (Option String)
  importOutcome : String → Except String (Option String)
  reimportPerm : List String → List Nat

/-- Evaluate `f` on every element in order, propagating the panic layer:
`none` as soon as any element panics, otherwise the list of results. -/
def mapPanic {α β : Type} (f : α → Option β) : List α → Option (List β)
  | [] => some []
  | a :: rest =>
    match f a with
    | none => none
    | some b =>
      match mapPanic f rest with
      | none => none
      | some bs => some (b :: bs)

/-- First pass of `find_matching_certificate` over one page's summaries
(storage.rs:162-172): keep `certificate_arn` of each summary whose
`domain_name` equals `domain_names[0]`.  The `Vec` index panics
(`none`) when `domain_names` is empty and a summary carries a domain name;
the `unwrap` of `certificate_arn` panics when it is absent. -/
def firstPassSummaries (domain_names : List String) :
    List CertificateSummary → Option (List String)
  | [] => some []
  | s :: rest =>
    match s.domain_name with
    | none => firstPassSummaries domain_names rest
    | some summary_domain_name =>
      match domain_names.get? 0 with
      | none => none
      | some d0 =>
        if summary_domain_name == d0 then
          match s.certificate_arn with
          | none => none
          | some summary_cert_arn =>
            (firstPassSummaries domain_names rest).map (summary_cert_arn :: ·)
        else firstPassSummaries domain_names rest

/-- The pagination loop of `find_matching_certificate` (storage.rs:155-180):
walk the pages in order, accumulating first-pass candidates; a page error is
returned as the loop's error (`return Err(Box::new(e))`). -/
def collectCandidates (domain_names : List String) :
    List (Except String (Option (List CertificateSummary))) →
    Option (Except String (List String))
  | [] => some (.ok [])
  | page :: rest =>
    match page with
    | .error e => some (.error e)
    | .ok none => collectCandidates domain_names rest
    | .ok (some summaries) =>
      match firstPassSummaries domain_names summaries with
      | none => none
      | some here =>
        match collectCandidates domain_names rest with
        | none => none
        | some (.error e) => some (.error e)
        | some (.ok later) => some (.ok (here ++ later))

/-- The `filter_map` body of the describe fan-out (storage.rs:196-223).
Outer `Option` is the panic layer; the inner `Option` is the filter
(`none` = the candidate is not a match).  A describe error is logged and
yields no match.  NOTE: the source sorts the candidate's alternative names
but compares them against `domain_names` as given — `domain_names_sorted`
(storage.rs:182-183) is computed and never used. -/
def describeFilterOne (domain_names : List String)
    (describe : String → Except String (Option CertificateDetail))
    (candidate : String) : Option (Option String) :=
  match describe candidate with
  | .error _ => some none
  | .ok none => some none
  | .ok (some detail) =>
    match detail.type_ with
    | none => some none
    | some t =>
      if t == ACM_TYPE_IMPORTED then
        match detail.subject_alternative_names with
        | none => some none
        | some alt_names =>
          if sortStrings alt_names == domain_names then
            match detail.certificate_arn with
            | none => none
            | some a => some (some a)
          else some none
      else some none

/-- `AcmStorage::find_matching_certificate` (storage.rs:147-228).  The
describe futures are consumed in completion order
(`env.describeCompletion candidates`); the matched ARNs are collected in
that order. -/
def find_matching_certificate (domain_names : List String) (env : AcmEnv) :
    Option (Except LambdaError (List String)) :=
  match collectCandidates domain_names env.list_pages with
  | none => none
  | some (.error e) => some (.error (.awsError e))
  | some (.ok candidates) =>
    -- storage.rs:182-183: computed, then never read (see describeFilterOne)
    let _domain_names_sorted := sortStrings domain_names
    match mapPanic (describeFilterOne domain_names env.describe)
        (env.describeCompletion candidates) with
    | none => none
    | some filtered => some (.ok (filtered.filterMap id))

/-- `AcmStorage::import_new_certificate` (storage.rs:230-258): one
`import_certificate` call; an API error becomes a single `Error` result
entry (the `Result` layer is always `Ok`); success unwraps the response ARN
(panic if absent) into a single `Acm` entry. -/
def import_new_certificate (createOutcome : Except String (Option String)) :
    Option (Except LambdaError (List CertificateStorageResult)) :=
  match createOutcome with
  | .ok response_arn =>
    match response_arn with
    | none => none
    | some certificate_arn =>
      some (.ok [.acm ⟨certificate_arn⟩])
  | .error e =>
    some (.ok [.error ("Failed to import certificate: " ++ e)])

/-- The region extraction of `AcmImportTask::new` (storage.rs:321-330):
`cert_arn.split(':').nth(3).expect(..)` then
`Region::from_str(region_str).expect(..)` — both panic on failure. -/
def taskRegion (cert_arn : String) : Option String :=
  match (splitColon cert_arn).get? 3 with
  | none => none
  | some region_str =>
    if regionFromStrOk region_str then some region_str else none

/-- One result entry of the reimport stream (storage.rs:290-307): completion
slot `i` receives the outcome of task `j = perm[i]`; a success unwraps the
response ARN; a failure is reported as
`Failed to reimport certificate {existing_arns[i]}` — indexed by the
COMPLETION slot `i`, not by the failing task `j`. -/
def reimportEntry (existing_arns : List String)
    (outcomes : List (Except String (Option String))) (i j : Nat) :
    Option CertificateStorageResult :=
  match outcomes.get? j with
  | none => none
  | some (.ok response_arn) =>
    match response_arn with
    | none => none
    | some certificate_arn => some (.acm ⟨certificate_arn⟩)
  | some (.error e) =>
    match existing_arns.get? i with
    | none => none
    | some arn_i =>
      some (.error ("Failed to reimport certificate " ++ arn_i ++ ": " ++ e))

/-- `AcmStorage::reimport_certificate` (storage.rs:260-312).  All
`AcmImportTask`s are constructed eagerly (so a region-extraction panic on
any ARN precedes any outcome); `outcomes` pairs with `existing_arns` by
position; `perm` is the completion order (the original index of the task
finishing in each slot).  The `Result` layer is always `Ok`. -/
def reimport_certificate (existing_arns : List String)
    (outcomes : List (Except String (Option String))) (perm : List Nat) :
    Option (Except LambdaError (List CertificateStorageResult)) :=
  if existing_arns.all (fun a => (taskRegion a).isSome) then
    match mapPanic (fun p => reimportEntry existing_arns outcomes p.1 p.2)
        perm.enum with
    | none => none
    | some results => some (.ok results)
  else none

/-- `AcmStorage::save_certificate` (storage.rs:125-145): force-new → one
fresh import; explicit ARNs → reimport them; otherwise run the matching
engine (its `?` propagates a listing error), then import fresh on zero
matches or reimport every match. -/
def AcmStorage.save_certificate (s : AcmStorage) (domain_names : List String)
    (env : AcmEnv) :
    Option (Except LambdaError (List CertificateStorageResult)) :=
  if s.force_new_import then
    import_new_certificate env.createOutcome
  else
    match s.certificate_arns with
    | some existing_arns =>
      reimport_certificate existing_arns (existing_arns.map env.importOutcome)
        (env.reimportPerm existing_arns)
    | none =>
      match find_matching_certificate domain_names env with
      | none => none
      | some (.error e) => some (.error e)
      | some (.ok existing_arns) =>
        if existing_arns.length == 0 then
          import_new_certificate env.createOutcome
        else
          reimport_certificate existing_arns
            (existing_arns.map env.importOutcome)
            (env.reimportPerm existing_arns)

/-- The fields of rusoto's `PutParameterRequest` set by the writer
(storage.rs:476-483). -/
structure PutParameterRequest where
  name : String
  description : Option String
  overwrite : Option Bool
  type_ : Option String
  value : String
deriving DecidableEq, Repr

/-- The `PutParameterRequest` built by
`SsmParameterStorage::write_cert_component_to_ssm` (storage.rs:469-483):
name `{path}/Certificate/{domain_name}/{component}`, overwrite always on,
type `SecureString` when `secure` else `String`. -/
def mkPutParameterRequest (path domain_name data component : String)
    (secure : Bool) : PutParameterRequest :=
  let param_name := path ++ "/Certificate/" ++ domain_name ++ "/" ++ component
  { name := param_name
    description := some ("SSL " ++ component ++ " for " ++ domain_name)
    overwrite := some true
    type_ := some (if secure then "SecureString" else "String")
    value := data }

/-- The environment for the parameter-store writer: the `put_parameter`
response for each request, and the `get_parameter` read-back keyed by
parameter name (`.error` = transport failure, `.ok none` = no parameter in
the response, `.ok (some none)` = parameter without an ARN,
`.ok (some (some arn))` = the ARN). -/
structure SsmEnv where
  put : PutParameterRequest → Except String Unit
  getArn : String → Except String (Option (Option String))

/-- `SsmParameterStorage::write_cert_component_to_ssm` (storage.rs:461-530):
put the parameter, then read it back for its ARN; returns the
`(name, arn)` pair, or the put error boxed, or an `UnexpectedResponse`
error when the read-back fails or lacks a payload/ARN. -/
def write_cert_component_to_ssm (s : SsmParameterStorage) (env : SsmEnv)
    (domain_name data component : String) (secure : Bool) :
    Except LambdaError (String × String) :=
  let param_name := s.path ++ "/Certificate/" ++ domain_name ++ "/" ++ component
  match env.put (mkPutParameterRequest s.path domain_name data component secure) with
  | .error e => .error (.awsError e)
  | .ok _ =>
    match env.getArn param_name with
    | .error e =>
      .error (.unexpectedAwsResponse
        ("Unable to get ARN for parameter " ++ param_name ++ ": " ++ e))
    | .ok none =>
      .error (.unexpectedAwsResponse
        ("Unable to get ARN for parameter " ++ param_name ++ ": no parameter returned"))
    | .ok (some none) =>
      .error (.unexpectedAwsResponse
        ("Unable to get ARN for parameter " ++ param_name ++ ": no ARN returned"))
    | .ok (some (some arn)) => .ok (param_name, arn)

/-- `SsmParameterStorage::save_certificate` (storage.rs:428-458): index the
primary domain (panic on an empty domain list), `tokio::join!` the four
component writes — Certificate, Chain, FullChain plain, PrivateKey secure —
then `?` each result in that order; on success, one `SsmParameter` entry
carrying the four names and four ARNs. -/
def SsmParameterStorage.save_certificate (s : SsmParameterStorage)
    (env : SsmEnv) (domain_names : List String)
    (cert_pem chain_pem fullchain_pem pkey_pem : String) :
    Option (Except LambdaError (List CertificateStorageResult)) :=
  match domain_names.get? 0 with
  | none => none
  | some d0 =>
    match write_cert_component_to_ssm s env d0 cert_pem "Certificate" false with
    | .error e => some (.error e)
    | .ok (cert_param, cert_arn) =>
      match write_cert_component_to_ssm s env d0 chain_pem "Chain" false with
      | .error e => some (.error e)
      | .ok (chain_param, chain_arn) =>
        match write_cert_component_to_ssm s env d0 fullchain_pem "FullChain" false with
        | .error e => some (.error e)
        | .ok (fullchain_param, fullchain_arn) =>
          match write_cert_component_to_ssm s env d0 pkey_pem "PrivateKey" true with
          | .error e => some (.error e)
          | .ok (pkey_param, pkey_arn) =>
            some (.ok [.ssmParameter
              { cert_param, chain_param, fullchain_param, pkey_param,
                cert_arn, chain_arn, fullchain_arn, pkey_arn }])

/-- The four `PutParameterRequest`s issued by one parameter-store save, in
the order of the `tokio::join!` arms (storage.rs:436-441). -/
def ssmSaveRequests (s : SsmParameterStorage) (d0 : String)
    (cert_pem chain_pem fullchain_pem pkey_pem : String) :
    List PutParameterRequest :=
  [ mkPutParameterRequest s.path d0 cert_pem "Certificate" false,
    mkPutParameterRequest s.path d0 chain_pem "Chain" false,
    mkPutParameterRequest s.path d0 fullchain_pem "FullChain" false,
    mkPutParameterRequest s.path d0 pkey_pem "PrivateKey" true ]

/-- `CertificateStorage::save_certificate` (storage.rs:47-66): route to the
configured backend.  The S3 arm's `save_certificate` is `unimplemented!()`
(storage.rs:398), a panic. -/
def CertificateStorage.save_certificate (cfg : CertificateStorage)
    (domain_names : List String) (acmEnv : AcmEnv) (ssmEnv : SsmEnv)
    (cert_pem chain_pem fullchain_pem pkey_pem : String) :
    Option (Except LambdaError (List CertificateStorageResult)) :=
  match cfg with
  | .acm s => s.save_certificate domain_names acmEnv
  | .s3 _ => none
  | .ssmParameter s =>
    s.save_certificate ssmEnv domain_names cert_pem chain_pem fullchain_pem pkey_pem

/-- The number of independent write targets `AcmStorage::save_certificate`
attempts on the path it takes: 1 for a fresh import, the ARN-list length
for a reimport fan-out, `none` when the matching pass panics or errors
before any write. -/
def AcmStorage.plannedTargets (s : AcmStorage) (domain_names : List String)
    (env : AcmEnv) : Option Nat :=
  if s.force_new_import then some 1
  else
    match s.certificate_arns with
    | some existing_arns => some existing_arns.length
    | none =>
      match find_matching_certificate domain_names env with
      | some (.ok existing_arns) =>
        if existing_arns.length == 0 then some 1 else some existing_arns.length
      | _ => none

/-- `plannedTargets` lifted over the dispatcher: 1 for the parameter-store
backend, `none` for the unimplemented S3 backend. -/
def CertificateStorage.plannedTargets (cfg : CertificateStorage)
    (domain_names : List String) (env : AcmEnv) : Option Nat :=
  match cfg with
  | .acm s => s.plannedTargets domain_names env
  | .s3 _ => none
  | .ssmParameter _ => some 1

/-! ## Helper lemmas -/

/-- `mapPanic` preserves length when no element panics. -/
theorem mapPanic_length {α β : Type} (f : α → Option β) :
    ∀ (l : List α) (r : List β), mapPanic f l = some r → r.length = l.length := by
  intro l
  induction l with
  | nil =>
    intro r h
    simp only [mapPanic, Option.some.injEq] at h
    subst h
    rfl
  | cons a t ih =>
    intro r h
    simp only [mapPanic] at h
    cases hfa : f a with
    | none => rw [hfa] at h; exact absurd h (by simp)
    | some b =>
      rw [hfa] at h
      cases hmt : mapPanic f t with
      | none => rw [hmt] at h; exact absurd h (by simp)
      | some bs =>
        rw [hmt] at h
        simp only [Option.some.injEq] at h
        subst h
        simp [ih bs hmt]

/-- `validateArns` fails, naming a bad identifier of the list, whenever the
list holds one that fails the structural check. -/
theorem validateArns_error_of_bad {arns : List String} {s : String}
    (hs : s ∈ arns) (hbad : acmArnShapeOk s = false) :
    ∃ t, t ∈ arns ∧ acmArnShapeOk t = false ∧
      validateArns arns = .error (.invalidAcmCertificateArn t) := by
  induction arns with
  | nil => cases hs
  | cons a rest ih =>
    by_cases ha : acmArnShapeOk a = true
    · have hsr : s ∈ rest := by
        rcases List.mem_cons.mp hs with h | h
        · exact absurd (h ▸ ha) (by simp [hbad])
        · exact h
      obtain ⟨t, htmem, htbad, hterr⟩ := ih hsr
      exact ⟨t, List.mem_cons_of_mem a htmem, htbad, by simp [validateArns, ha, hterr]⟩
    · have ha' : acmArnShapeOk a = false := by
        cases h : acmArnShapeOk a
        · rfl
        · exact absurd h ha
      exact ⟨a, List.mem_cons_self a rest, ha', by simp [validateArns, ha']⟩

/-! ## Claim theorems -/

/-- C7: for every certificate-manager configuration with an explicit
identifier list (of any contents) and the force-new flag set, `validate`
fails with the `ConfigurationError("Cannot specify CertificateArn and
ForceNewImport")`, independent of the list's contents. -/
theorem c7_validate_rejects_arns_with_force_new (arns : List String) :
    AcmStorage.validate ⟨some arns, true⟩ =
      .error (.invalidAcmConfiguration
        "Cannot specify CertificateArn and ForceNewImport") := rfl

/-- C8 (amended): for every string failing the code's structural identifier
check — `arn:<partition>:acm:<region>:<12-BYTE-account>:certificate/<id>`
with a resolvable region, the account field being any 12 bytes, not
necessarily digits — validation of a certificate-manager configuration whose
identifier list contains it fails with a configuration error naming an
identifier of the list that fails the check, stopping the whole request. -/
theorem c8_invalid_arn_fails_validation (arns : List String) (s : String)
    (hs : s ∈ arns) (hbad : acmArnShapeOk s = false) :
    ∃ t, t ∈ arns ∧ acmArnShapeOk t = false ∧
      AcmStorage.validate ⟨some arns, false⟩ =
        .error (.invalidAcmCertificateArn t) := by
  have h := validateArns_error_of_bad hs hbad
  simpa [AcmStorage.validate] using h

/-- C8 witness: the amended theorem applied to a concrete malformed
identifier. -/
theorem c8_invalid_arn_fails_validation_witness :
    ∃ t, t ∈ ["not-an-arn"] ∧ acmArnShapeOk t = false ∧
      AcmStorage.validate ⟨some ["not-an-arn"], false⟩ =
        .error (.invalidAcmCertificateArn t) :=
  c8_invalid_arn_fails_validation ["not-an-arn"] "not-an-arn"
    (List.mem_singleton.mpr rfl) (by decide)

/-- An ARN whose account field is 12 letters rather than 12 digits: it fails
the spec's 12-digit shape but passes the code's length-only check. -/
def c8BadAccountArn : String := "arn:aws:acm:us-east-1:abcdefghijkl:certificate/x"

/-- C8 counterexample: an identifier that does not match the claim's
structural shape (its account field holds no digit at all), for which
validation of the configuration containing it nevertheless succeeds —
the code checks the account field's byte length only. -/
theorem c8_counterexample_nondigit_account_accepted :
    specArnShapeOk c8BadAccountArn = false ∧
      AcmStorage.validate ⟨some [c8BadAccountArn], false⟩ = .ok () := by
  exact ⟨by decide, rfl⟩

/-- C10: every parameter-store component write is issued with the overwrite
flag set: every `PutParameterRequest` the writer builds carries
`overwrite = Some(true)`, in particular all four requests of a
`save_certificate` fan-out, so a pre-existing parameter at the same derived
name is replaced rather than failing the write. -/
theorem c10_overwrite_flag_always_set :
    (∀ path domain_name data component secure,
      (mkPutParameterRequest path domain_name data component secure).overwrite =
        some true) ∧
    (∀ s d0 cert_pem chain_pem fullchain_pem pkey_pem,
      (ssmSaveRequests s d0 cert_pem chain_pem fullchain_pem pkey_pem).map
          (fun r => r.overwrite) = [some true, some true, some true, some true]) :=
  ⟨fun _ _ _ _ _ => rfl, fun _ _ _ _ _ _ => rfl⟩

/-- The ARN of C1's candidate certificate. -/
def c1Arn : String := "arn:aws:acm:us-east-1:123456789012:certificate/c1"

/-- C1's candidate detail: an imported certificate whose subject-alternative
names are exactly the requested domains (stored already sorted). -/
def c1Detail : CertificateDetail :=
  { type_ := some ACM_TYPE_IMPORTED,
    subject_alternative_names := some ["a.test", "b.test"],
    certificate_arn := some c1Arn }

/-- C1's environment: the status-filtered listing holds one summary whose
domain name is the first requested domain; its detail is `c1Detail`. -/
def c1Env : AcmEnv :=
  { list_pages :=
      [.ok (some [{ domain_name := some "b.test", certificate_arn := some c1Arn }])],
    describe := fun _ => .ok (some c1Detail),
    describeCompletion := id,
    createOutcome := .error "unused",
    importOutcome := fun _ => .error "unused",
    reimportPerm := fun l => List.range l.length }

/-- C1 (the code at the failing input): the request is
`["b.test", "a.test"]`; the sole candidate is listed (so its status is
issued/expired), is imported, and its sorted alternative-name set equals the
sorted request (first conjunct) — yet the matching engine returns no match,
because the source compares the candidate's sorted names against the request
list AS GIVEN (`domain_names`), leaving its own `domain_names_sorted`
unused. -/
theorem c1_sorted_match_not_returned :
    sortStrings ["a.test", "b.test"] = sortStrings ["b.test", "a.test"] ∧
      c1Detail.subject_alternative_names = some ["a.test", "b.test"] ∧
      find_matching_certificate ["b.test", "a.test"] c1Env = some (.ok []) :=
  ⟨rfl, rfl, rfl⟩

/-- C2's first reimport target, in us-east-1. -/
def c2ArnA : String := "arn:aws:acm:us-east-1:123456789012:certificate/aaaa"

/-- C2's second reimport target, in us-west-2. -/
def c2ArnB : String := "arn:aws:acm:us-west-2:123456789012:certificate/bbbb"

/-- C2 (the code at the failing input): two targets; each task's region is
taken from its own ARN (conjuncts 2-3); the second target's task fails and
completes FIRST (completion order `[1, 0]`).  The stream is enumerated in
completion order, so the failure entry names `existing_arns[0]` — the
distinct first target (conjunct 4) — instead of the second target that
actually failed. -/
theorem c2_reimport_misattributes_failure :
    reimport_certificate [c2ArnA, c2ArnB]
        [.ok (some c2ArnA), .error "throttled"] [1, 0] =
      some (.ok
        [.error ("Failed to reimport certificate " ++ c2ArnA ++ ": throttled"),
         .acm ⟨c2ArnA⟩]) ∧
      taskRegion c2ArnA = some "us-east-1" ∧
      taskRegion c2ArnB = some "us-west-2" ∧
      c2ArnA ≠ c2ArnB :=
  ⟨rfl, rfl, rfl, by decide⟩

/-- When no listing page is an error, the pagination loop cannot produce an
error. -/
theorem collectCandidates_no_error (domain_names : List String)
    (pages : List (Except String (Option (List CertificateSummary))))
    (h : ∀ p ∈ pages, ∀ e, p ≠ Except.error e) :
    ∀ e, collectCandidates domain_names pages ≠ some (.error e) := by
  induction pages with
  | nil => intro e hc; simp [collectCandidates] at hc
  | cons page rest ih =>
    have hrest : ∀ p ∈ rest, ∀ e, p ≠ Except.error e :=
      fun p hp => h p (List.mem_cons_of_mem _ hp)
    intro e hc
    cases page with
    | error e' => exact h _ (List.mem_cons_self _ _) e' rfl
    | ok op =>
      cases op with
      | none =>
        simp only [collectCandidates] at hc
        exact ih hrest e hc
      | some summaries =>
        simp only [collectCandidates] at hc
        cases hfp : firstPassSummaries domain_names summaries with
        | none => rw [hfp] at hc; simp at hc
        | some here =>
          rw [hfp] at hc
          cases hcc : collectCandidates domain_names rest with
          | none => rw [hcc] at hc; simp at hc
          | some r =>
            rw [hcc] at hc
            cases r with
            | error e2 => exact absurd hcc (ih hrest e2)
            | ok later => simp at hc

/-- When no listing page is an error, `find_matching_certificate` never
returns an error (in particular describe failures never surface as one). -/
theorem find_matching_no_error_of_pages_ok (domain_names : List String)
    (env : AcmEnv) (h : ∀ p ∈ env.list_pages, ∀ e, p ≠ Except.error e) :
    ∀ e, find_matching_certificate domain_names env ≠ some (.error e) := by
  intro e hc
  unfold find_matching_certificate at hc
  cases hcc : collectCandidates domain_names env.list_pages with
  | none => rw [hcc] at hc; simp at hc
  | some r =>
    rw [hcc] at hc
    cases r with
    | error e2 =>
      exact absurd hcc (collectCandidates_no_error domain_names env.list_pages h e2)
    | ok candidates =>
      dsimp only at hc
      cases hm : mapPanic (describeFilterOne domain_names env.describe)
          (env.describeCompletion candidates) with
      | none => rw [hm] at hc; simp at hc
      | some filtered => rw [hm] at hc; simp at hc

/-- C4 (amended): per-candidate describe failures are non-fatal — a failed
describe yields "no match" for that candidate, and as long as every listing
page succeeds the matching pass never returns an error; a LISTING failure,
however, is fatal: it becomes the error result of
`find_matching_certificate`, which the enclosing `save_certificate`
propagates. -/
theorem c4_describe_nonfatal_listing_fatal (domain_names : List String)
    (env : AcmEnv) :
    (∀ c e, env.describe c = .error e →
      describeFilterOne domain_names env.describe c = some none) ∧
    ((∀ p ∈ env.list_pages, ∀ e, p ≠ Except.error e) →
      ∀ e, find_matching_certificate domain_names env ≠ some (.error e)) ∧
    (∀ e rest, env.list_pages = .error e :: rest →
      find_matching_certificate domain_names env = some (.error (.awsError e)) ∧
      AcmStorage.save_certificate ⟨none, false⟩ domain_names env =
        some (.error (.awsError e))) := by
  refine ⟨?_, find_matching_no_error_of_pages_ok domain_names env, ?_⟩
  · intro c e hde
    simp [describeFilterOne, hde]
  · intro e rest hpages
    have hfmc : find_matching_certificate domain_names env =
        some (.error (.awsError e)) := by
      unfold find_matching_certificate
      rw [hpages]
      simp [collectCandidates]
    exact ⟨hfmc, by simp [AcmStorage.save_certificate, hfmc]⟩

/-- An environment whose first listing page fails. -/
def c4Env : AcmEnv :=
  { list_pages := [.error "boom"],
    describe := fun _ => .error "unused",
    describeCompletion := id,
    createOutcome := .error "unused",
    importOutcome := fun _ => .error "unused",
    reimportPerm := fun l => List.range l.length }

/-- C4 witness: the amended theorem's fatal-listing branch at a concrete
environment. -/
theorem c4_describe_nonfatal_listing_fatal_witness :
    find_matching_certificate ["d.test"] c4Env = some (.error (.awsError "boom")) ∧
      AcmStorage.save_certificate ⟨none, false⟩ ["d.test"] c4Env =
        some (.error (.awsError "boom")) :=
  (c4_describe_nonfatal_listing_fatal ["d.test"] c4Env).2.2 "boom" [] rfl

/-- An environment whose only listing call fails with `listfail`. -/
def c4CounterEnv : AcmEnv :=
  { list_pages := [.error "listfail"],
    describe := fun _ => .error "unused",
    describeCompletion := id,
    createOutcome := .error "unused",
    importOutcome := fun _ => .error "unused",
    reimportPerm := fun l => List.range l.length }

/-- C4 counterexample: a failed listing call DOES cause
`find_matching_certificate` — and the enclosing `save_certificate` — to
return an error, contradicting the claim that listing failures are
non-fatal. -/
theorem c4_counterexample_listing_failure_fatal :
    AcmStorage.save_certificate ⟨none, false⟩ ["d.test"] c4CounterEnv =
      some (.error (.awsError "listfail")) := rfl

/-- On the empty domain list, the first pass panics (out-of-bounds index of
`domain_names[0]`) as soon as any summary carries a domain name. -/
theorem firstPass_empty_panics (ss : List CertificateSummary)
    (h : ∃ su ∈ ss, su.domain_name ≠ none) :
    firstPassSummaries [] ss = none := by
  induction ss with
  | nil => rcases h with ⟨su, hmem, _⟩; cases hmem
  | cons s rest ih =>
    rcases h with ⟨su, hmem, hdn⟩
    rcases List.mem_cons.mp hmem with h1 | h1
    · subst h1
      cases hd : su.domain_name with
      | none => exact absurd hd hdn
      | some d => simp [firstPassSummaries, hd]
    · cases hd : s.domain_name with
      | none => simpa [firstPassSummaries, hd] using ih ⟨su, h1, hdn⟩
      | some d => simp [firstPassSummaries, hd]

/-- On the empty domain list, the first pass completes (with no candidates)
when no summary carries a domain name. -/
theorem firstPass_empty_ok (ss : List CertificateSummary)
    (h : ∀ su ∈ ss, su.domain_name = none) :
    firstPassSummaries [] ss = some [] := by
  induction ss with
  | nil => rfl
  | cons s rest ih =>
    have hs := h s (List.mem_cons_self _ _)
    simpa [firstPassSummaries, hs] using
      ih (fun su hm => h su (List.mem_cons_of_mem _ hm))

/-- On the empty domain list, the pagination loop panics whenever some
successful page holds a domain-bearing summary. -/
theorem collectCandidates_empty_panics
    (pages : List (Except String (Option (List CertificateSummary))))
    (hok : ∀ p ∈ pages, ∀ e, p ≠ Except.error e)
    (h : ∃ p ∈ pages, ∃ ss, p = .ok (some ss) ∧ ∃ su ∈ ss, su.domain_name ≠ none) :
    collectCandidates [] pages = none := by
  induction pages with
  | nil => rcases h with ⟨p, hmem, _⟩; cases hmem
  | cons page rest ih =>
    have hrestok : ∀ p ∈ rest, ∀ e, p ≠ Except.error e :=
      fun p hp => hok p (List.mem_cons_of_mem _ hp)
    rcases h with ⟨p, hmem, ss, hss, hsu⟩
    rcases List.mem_cons.mp hmem with h1 | h1
    · subst h1
      rw [hss]
      simp [collectCandidates, firstPass_empty_panics ss hsu]
    · cases page with
      | error e => exact absurd rfl (hok _ (List.mem_cons_self _ _) e)
      | ok op =>
        have hrec := ih hrestok ⟨p, h1, ss, hss, hsu⟩
        cases op with
        | none => simpa [collectCandidates] using hrec
        | some ss' =>
          cases hfp : firstPassSummaries [] ss' with
          | none => simp [collectCandidates, hfp]
          | some here => simp [collectCandidates, hfp, hrec]

/-- On the empty domain list, the pagination loop completes with no
candidates when every successful page's summaries are domain-less. -/
theorem collectCandidates_empty_ok
    (pages : List (Except String (Option (List CertificateSummary))))
    (hok : ∀ p ∈ pages, ∀ e, p ≠ Except.error e)
    (h : ∀ p ∈ pages, ∀ ss, p = .ok (some ss) → ∀ su ∈ ss, su.domain_name = none) :
    collectCandidates [] pages = some (.ok []) := by
  induction pages with
  | nil => rfl
  | cons page rest ih =>
    have hrestok : ∀ p ∈ rest, ∀ e, p ≠ Except.error e :=
      fun p hp => hok p (List.mem_cons_of_mem _ hp)
    have hrest : ∀ p ∈ rest, ∀ ss, p = .ok (some ss) → ∀ su ∈ ss, su.domain_name = none :=
      fun p hp => h p (List.mem_cons_of_mem _ hp)
    have hrec := ih hrestok hrest
    cases page with
    | error e => exact absurd rfl (hok _ (List.mem_cons_self _ _) e)
    | ok op =>
      cases op with
      | none => simpa [collectCandidates] using hrec
      | some ss =>
        have hfp := firstPass_empty_ok ss (h _ (List.mem_cons_self _ _) ss rfl)
        simp [collectCandidates, hfp, hrec]

/-- C9 (amended): `find_matching_certificate` has no explicit empty-list
guard.  On an empty requested domain list (with all listing pages
succeeding), the scan PANICS — the out-of-bounds index `domain_names[0]`,
the `none` of the panic layer — as soon as any listed summary carries a
domain name; only when no summary carries one does it complete, returning
no candidates.  No internal-error branch exists for this input. -/
theorem c9_empty_domains_panics_not_error (env : AcmEnv)
    (hok : ∀ p ∈ env.list_pages, ∀ e, p ≠ Except.error e)
    (hcomp : env.describeCompletion [] = []) :
    ((∃ p ∈ env.list_pages, ∃ ss, p = .ok (some ss) ∧
        ∃ su ∈ ss, su.domain_name ≠ none) →
      find_matching_certificate [] env = none) ∧
    ((∀ p ∈ env.list_pages, ∀ ss, p = .ok (some ss) →
        ∀ su ∈ ss, su.domain_name = none) →
      find_matching_certificate [] env = some (.ok [])) := by
  constructor
  · intro h
    have hc := collectCandidates_empty_panics env.list_pages hok h
    simp [find_matching_certificate, hc]
  · intro h
    have hc := collectCandidates_empty_ok env.list_pages hok h
    simp [find_matching_certificate, hc, hcomp, mapPanic]

/-- An environment listing one summary that carries a domain name. -/
def c9Env : AcmEnv :=
  { list_pages :=
      [.ok (some [{ domain_name := some "a.test", certificate_arn := some "arn:x" }])],
    describe := fun _ => .error "unused",
    describeCompletion := id,
    createOutcome := .error "unused",
    importOutcome := fun _ => .error "unused",
    reimportPerm := fun l => List.range l.length }

/-- C9 counterexample: on the empty domain list the scan does not take an
internal-error branch — it hits the out-of-bounds index (the panic layer's
`none`). -/
theorem c9_counterexample_empty_list_is_panic :
    find_matching_certificate [] c9Env = none ∧
      ∀ e, find_matching_certificate [] c9Env ≠ some (.error e) := by
  refine ⟨rfl, fun e h => ?_⟩
  have h' : (none : Option (Except LambdaError (List String))) =
      some (.error e) := h
  exact Option.noConfusion h'

/-- An environment whose listing returns no pages at all. -/
def c9EmptyEnv : AcmEnv :=
  { list_pages := [],
    describe := fun _ => .error "unused",
    describeCompletion := id,
    createOutcome := .error "unused",
    importOutcome := fun _ => .error "unused",
    reimportPerm := fun l => List.range l.length }

/-- C9 witness: the amended theorem's completing branch at a concrete
environment with no listed summaries. -/
theorem c9_empty_domains_panics_not_error_witness :
    find_matching_certificate [] c9EmptyEnv = some (.ok []) :=
  (c9_empty_domains_panics_not_error c9EmptyEnv
      (fun p hp => absurd hp (List.not_mem_nil p)) rfl).2
    (fun p hp => absurd hp (List.not_mem_nil p))

/-- C6: with no explicit identifier list and force-new unset, when the
matching engine returns zero candidates `save_certificate` performs exactly
one create: on create success the single result entry is the
`CertificateManagerResult` carrying the new ARN; on create failure it is the
single `StorageError` entry naming the failure — the call itself still
returns `Ok` (no retry, no whole-call error). -/
theorem c6_zero_candidates_single_create (s : AcmStorage)
    (domain_names : List String) (env : AcmEnv)
    (harns : s.certificate_arns = none) (hforce : s.force_new_import = false)
    (hmatch : find_matching_certificate domain_names env = some (.ok [])) :
    (∀ a, env.createOutcome = .ok (some a) →
      s.save_certificate domain_names env = some (.ok [.acm ⟨a⟩])) ∧
    (∀ e, env.createOutcome = .error e →
      s.save_certificate domain_names env =
        some (.ok [.error ("Failed to import certificate: " ++ e)])) := by
  constructor
  · intro a ha
    simp [AcmStorage.save_certificate, hforce, harns, hmatch,
      import_new_certificate, ha]
  · intro e he
    simp [AcmStorage.save_certificate, hforce, harns, hmatch,
      import_new_certificate, he]

/-- An environment with an empty listing (zero matching-engine candidates)
and a successful create. -/
def c6Env : AcmEnv :=
  { list_pages := [],
    describe := fun _ => .error "unused",
    describeCompletion := id,
    createOutcome := .ok (some "arn:aws:acm:us-east-1:123456789012:certificate/new"),
    importOutcome := fun _ => .error "unused",
    reimportPerm := fun l => List.range l.length }

/-- C6 witness: the theorem's create-success branch at a concrete
environment. -/
theorem c6_zero_candidates_single_create_witness :
    AcmStorage.save_certificate ⟨none, false⟩ ["d.test"] c6Env =
      some (.ok [.acm ⟨"arn:aws:acm:us-east-1:123456789012:certificate/new"⟩]) :=
  (c6_zero_candidates_single_create ⟨none, false⟩ ["d.test"] c6Env
      rfl rfl rfl).1 _ rfl

/-- C5: the parameter-store save issues the four component writes —
Certificate, Chain, FullChain, PrivateKey, each named
`<path>/Certificate/<primary-domain>/<Component>` (conjunct 1), with exactly
the PrivateKey request typed `SecureString` (conjunct 2); when all four
writes return their `(name, ARN)` pairs the call returns exactly one
`SsmParameter` result carrying all four names and four ARNs (conjunct 3);
when any one write fails, the whole call returns an error and no partial
result list is produced (conjunct 4). -/
theorem c5_parameter_store_all_or_nothing (s : SsmParameterStorage)
    (env : SsmEnv) (domain_names : List String)
    (cert_pem chain_pem fullchain_pem pkey_pem d0 : String)
    (h0 : domain_names[0]? = some d0) :
    ((ssmSaveRequests s d0 cert_pem chain_pem fullchain_pem pkey_pem).map
        (fun r => r.name) =
      ["Certificate", "Chain", "FullChain", "PrivateKey"].map
        (fun component => s.path ++ "/Certificate/" ++ d0 ++ "/" ++ component)) ∧
    ((ssmSaveRequests s d0 cert_pem chain_pem fullchain_pem pkey_pem).map
        (fun r => r.type_) =
      [some "String", some "String", some "String", some "SecureString"]) ∧
    (∀ n1 a1 n2 a2 n3 a3 n4 a4,
      write_cert_component_to_ssm s env d0 cert_pem "Certificate" false = .ok (n1, a1) →
      write_cert_component_to_ssm s env d0 chain_pem "Chain" false = .ok (n2, a2) →
      write_cert_component_to_ssm s env d0 fullchain_pem "FullChain" false = .ok (n3, a3) →
      write_cert_component_to_ssm s env d0 pkey_pem "PrivateKey" true = .ok (n4, a4) →
      s.save_certificate env domain_names cert_pem chain_pem fullchain_pem pkey_pem =
        some (.ok [.ssmParameter ⟨n1, n2, n3, n4, a1, a2, a3, a4⟩])) ∧
    (∀ e,
      (write_cert_component_to_ssm s env d0 cert_pem "Certificate" false = .error e ∨
       write_cert_component_to_ssm s env d0 chain_pem "Chain" false = .error e ∨
       write_cert_component_to_ssm s env d0 fullchain_pem "FullChain" false = .error e ∨
       write_cert_component_to_ssm s env d0 pkey_pem "PrivateKey" true = .error e) →
      ∃ e2, s.save_certificate env domain_names cert_pem chain_pem fullchain_pem pkey_pem =
        some (.error e2)) := by
  refine ⟨rfl, rfl, ?_, ?_⟩
  · intro n1 a1 n2 a2 n3 a3 n4 a4 h1 h2 h3 h4
    simp [SsmParameterStorage.save_certificate, h0, h1, h2, h3, h4]
  · intro e hcase
    rcases hcase with h | h | h | h
    · exact ⟨e, by simp [SsmParameterStorage.save_certificate, h0, h]⟩
    · cases h1 : write_cert_component_to_ssm s env d0 cert_pem "Certificate" false with
      | error e1 => exact ⟨e1, by simp [SsmParameterStorage.save_certificate, h0, h1]⟩
      | ok v1 =>
        obtain ⟨n1, a1⟩ := v1
        exact ⟨e, by simp [SsmParameterStorage.save_certificate, h0, h1, h]⟩
    · cases h1 : write_cert_component_to_ssm s env d0 cert_pem "Certificate" false with
      | error e1 => exact ⟨e1, by simp [SsmParameterStorage.save_certificate, h0, h1]⟩
      | ok v1 =>
        obtain ⟨n1, a1⟩ := v1
        cases h2 : write_cert_component_to_ssm s env d0 chain_pem "Chain" false with
        | error e2 => exact ⟨e2, by simp [SsmParameterStorage.save_certificate, h0, h1, h2]⟩
        | ok v2 =>
          obtain ⟨n2, a2⟩ := v2
          exact ⟨e, by simp [SsmParameterStorage.save_certificate, h0, h1, h2, h]⟩
    · cases h1 : write_cert_component_to_ssm s env d0 cert_pem "Certificate" false with
      | error e1 => exact ⟨e1, by simp [SsmParameterStorage.save_certificate, h0, h1]⟩
      | ok v1 =>
        obtain ⟨n1, a1⟩ := v1
        cases h2 : write_cert_component_to_ssm s env d0 chain_pem "Chain" false with
        | error e2 => exact ⟨e2, by simp [SsmParameterStorage.save_certificate, h0, h1, h2]⟩
        | ok v2 =>
          obtain ⟨n2, a2⟩ := v2
          cases h3 : write_cert_component_to_ssm s env d0 fullchain_pem "FullChain" false with
          | error e3 =>
            exact ⟨e3, by simp [SsmParameterStorage.save_certificate, h0, h1, h2, h3]⟩
          | ok v3 =>
            obtain ⟨n3, a3⟩ := v3
            exact ⟨e, by simp [SsmParameterStorage.save_certificate, h0, h1, h2, h3, h]⟩

/-- A parameter-store environment whose puts succeed and whose read-backs
return the parameter with an ARN derived from its name. -/
def c5Env : SsmEnv :=
  { put := fun _ => .ok (),
    getArn := fun name => .ok (some (some ("arn:ssm:" ++ name))) }

/-- C5 witness: the theorem's all-writes-succeed branch at a concrete
configuration and environment. -/
theorem c5_parameter_store_all_or_nothing_witness :
    SsmParameterStorage.save_certificate ⟨"/certs"⟩ c5Env ["d.test"]
        "CERTPEM" "CHAINPEM" "FULLCHAINPEM" "KEYPEM" =
      some (.ok [.ssmParameter
        { cert_param := "/certs/Certificate/d.test/Certificate",
          chain_param := "/certs/Certificate/d.test/Chain",
          fullchain_param := "/certs/Certificate/d.test/FullChain",
          pkey_param := "/certs/Certificate/d.test/PrivateKey",
          cert_arn := "arn:ssm:/certs/Certificate/d.test/Certificate",
          chain_arn := "arn:ssm:/certs/Certificate/d.test/Chain",
          fullchain_arn := "arn:ssm:/certs/Certificate/d.test/FullChain",
          pkey_arn := "arn:ssm:/certs/Certificate/d.test/PrivateKey" }]) :=
  (c5_parameter_store_all_or_nothing ⟨"/certs"⟩ c5Env ["d.test"]
      "CERTPEM" "CHAINPEM" "FULLCHAINPEM" "KEYPEM" "d.test" rfl).2.2.1
    _ _ _ _ _ _ _ _ rfl rfl rfl rfl

/-- A fresh import that returns (without panicking) returns exactly one
result entry. -/
theorem import_new_length (o : Except String (Option String))
    (rs : List CertificateStorageResult)
    (h : import_new_certificate o = some (.ok rs)) : rs.length = 1 := by
  cases o with
  | ok oa =>
    cases oa with
    | none => simp [import_new_certificate] at h
    | some a =>
      simp only [import_new_certificate, Option.some.injEq, Except.ok.injEq] at h
      subst h
      rfl
  | error e =>
    simp only [import_new_certificate, Option.some.injEq, Except.ok.injEq] at h
    subst h
    rfl

/-- A reimport fan-out that returns (without panicking) returns one result
entry per completion slot. -/
theorem reimport_length (existing_arns : List String)
    (outcomes : List (Except String (Option String))) (perm : List Nat)
    (rs : List CertificateStorageResult)
    (h : reimport_certificate existing_arns outcomes perm = some (.ok rs)) :
    rs.length = perm.length := by
  unfold reimport_certificate at h
  by_cases hall : existing_arns.all (fun a => (taskRegion a).isSome)
  · rw [if_pos hall] at h
    cases hm : mapPanic (fun p => reimportEntry existing_arns outcomes p.1 p.2)
        perm.enum with
    | none => rw [hm] at h; simp at h
    | some results =>
      rw [hm] at h
      simp only [Option.some.injEq, Except.ok.injEq] at h
      subst h
      rw [mapPanic_length _ _ _ hm]
      exact List.enum_length
  · rw [if_neg hall] at h
    simp at h

/-- A parameter-store save that returns `Ok` returns exactly one result
entry. -/
theorem ssm_save_length (s : SsmParameterStorage) (env : SsmEnv)
    (domain_names : List String)
    (cert_pem chain_pem fullchain_pem pkey_pem : String)
    (rs : List CertificateStorageResult)
    (h : s.save_certificate env domain_names cert_pem chain_pem fullchain_pem
        pkey_pem = some (.ok rs)) : rs.length = 1 := by
  unfold SsmParameterStorage.save_certificate at h
  cases h0 : domain_names.get? 0 with
  | none => rw [h0] at h; simp at h
  | some d0 =>
    rw [h0] at h
    dsimp only at h
    cases h1 : write_cert_component_to_ssm s env d0 cert_pem "Certificate" false with
    | error e => rw [h1] at h; simp at h
    | ok v1 =>
      obtain ⟨n1, a1⟩ := v1
      rw [h1] at h
      dsimp only at h
      cases h2 : write_cert_component_to_ssm s env d0 chain_pem "Chain" false with
      | error e => rw [h2] at h; simp at h
      | ok v2 =>
        obtain ⟨n2, a2⟩ := v2
        rw [h2] at h
        dsimp only at h
        cases h3 : write_cert_component_to_ssm s env d0 fullchain_pem "FullChain" false with
        | error e => rw [h3] at h; simp at h
        | ok v3 =>
          obtain ⟨n3, a3⟩ := v3
          rw [h3] at h
          dsimp only at h
          cases h4 : write_cert_component_to_ssm s env d0 pkey_pem "PrivateKey" true with
          | error e => rw [h4] at h; simp at h
          | ok v4 =>
            obtain ⟨n4, a4⟩ := v4
            rw [h4] at h
            dsimp only at h
            simp only [Option.some.injEq, Except.ok.injEq] at h
            subst h
            rfl

/-- C3 (amended): whenever the dispatcher's `save_certificate` returns `Ok`,
the result list's length equals the number of independent write targets the
taken path attempted (`plannedTargets`); the list is non-empty EXCEPT in one
case the original claim rules in: a certificate-manager configuration whose
explicit identifier list is present but empty (and force-new unset), where
zero update targets are attempted and the `Ok` result list is empty. -/
theorem c3_result_count_matches_targets (cfg : CertificateStorage)
    (domain_names : List String) (acmEnv : AcmEnv) (ssmEnv : SsmEnv)
    (cert_pem chain_pem fullchain_pem pkey_pem : String)
    (hperm : ∀ l, (acmEnv.reimportPerm l).Perm (List.range l.length))
    (rs : List CertificateStorageResult)
    (hok : cfg.save_certificate domain_names acmEnv ssmEnv cert_pem chain_pem
        fullchain_pem pkey_pem = some (.ok rs)) :
    cfg.plannedTargets domain_names acmEnv = some rs.length ∧
      (rs = [] → ∃ s, cfg = .acm s ∧ s.certificate_arns = some [] ∧
        s.force_new_import = false) := by
  cases cfg with
  | s3 s => simp [CertificateStorage.save_certificate] at hok
  | ssmParameter s =>
    have hlen := ssm_save_length s ssmEnv domain_names cert_pem chain_pem
      fullchain_pem pkey_pem rs
      (by simpa [CertificateStorage.save_certificate] using hok)
    refine ⟨by simp [CertificateStorage.plannedTargets, hlen], fun hnil => ?_⟩
    rw [hnil] at hlen
    simp at hlen
  | acm s =>
    simp only [CertificateStorage.save_certificate] at hok
    unfold AcmStorage.save_certificate at hok
    by_cases hforce : s.force_new_import
    · rw [if_pos hforce] at hok
      have hlen := import_new_length acmEnv.createOutcome rs hok
      refine ⟨?_, fun hnil => ?_⟩
      · simp [CertificateStorage.plannedTargets, AcmStorage.plannedTargets,
          hforce, hlen]
      · rw [hnil] at hlen; simp at hlen
    · rw [if_neg hforce] at hok
      cases harns : s.certificate_arns with
      | some existing_arns =>
        rw [harns] at hok
        have hlen := reimport_length existing_arns
          (existing_arns.map acmEnv.importOutcome)
          (acmEnv.reimportPerm existing_arns) rs hok
        have hplen : (acmEnv.reimportPerm existing_arns).length =
            existing_arns.length := by
          simpa using (hperm existing_arns).length_eq
        refine ⟨?_, fun hnil => ?_⟩
        · simp [CertificateStorage.plannedTargets, AcmStorage.plannedTargets,
            hforce, harns, hlen, hplen]
        · rw [hnil] at hlen
          simp only [List.length_nil] at hlen
          have hml : existing_arns.length = 0 := by rw [← hplen, ← hlen]
          refine ⟨s, rfl, ?_, by simpa using hforce⟩
          rw [harns, List.length_eq_zero.mp hml]
      | none =>
        rw [harns] at hok
        cases hfmc : find_matching_certificate domain_names acmEnv with
        | none => rw [hfmc] at hok; simp at hok
        | some r =>
          rw [hfmc] at hok
          cases r with
          | error e => simp at hok
          | ok matched =>
            dsimp only at hok
            by_cases hz : matched.length == 0
            · rw [if_pos hz] at hok
              have hlen := import_new_length acmEnv.createOutcome rs hok
              refine ⟨?_, fun hnil => ?_⟩
              · simp [CertificateStorage.plannedTargets,
                  AcmStorage.plannedTargets, hforce, harns, hfmc, hz, hlen]
              · rw [hnil] at hlen; simp at hlen
            · rw [if_neg hz] at hok
              have hlen := reimport_length matched
                (matched.map acmEnv.importOutcome)
                (acmEnv.reimportPerm matched) rs hok
              have hplen : (acmEnv.reimportPerm matched).length =
                  matched.length := by
                simpa using (hperm matched).length_eq
              refine ⟨?_, fun hnil => ?_⟩
              · simp [CertificateStorage.plannedTargets,
                  AcmStorage.plannedTargets, hforce, harns, hfmc, hz, hlen,
                  hplen]
              · rw [hnil] at hlen
                simp only [List.length_nil] at hlen
                have hml : matched.length = 0 := by rw [← hplen, ← hlen]
                simp [hml] at hz

/-- A parameter-store environment no test below ever reaches. -/
def anySsmEnv : SsmEnv :=
  { put := fun _ => .ok (), getArn := fun _ => .error "unused" }

/-- An environment with an empty listing and a successful create. -/
def c3Env : AcmEnv :=
  { list_pages := [],
    describe := fun _ => .error "unused",
    describeCompletion := id,
    createOutcome := .ok (some "arn:new"),
    importOutcome := fun _ => .error "unused",
    reimportPerm := fun l => List.range l.length }

/-- C3 counterexample: a VALIDATED certificate-manager configuration whose
explicit identifier list is present but empty returns `Ok` with an EMPTY
result list — the claim promised a non-empty list in exactly this case. -/
theorem c3_counterexample_empty_arn_list_empty_results :
    AcmStorage.validate ⟨some [], false⟩ = .ok () ∧
      CertificateStorage.save_certificate (.acm ⟨some [], false⟩) ["d.test"]
          c3Env anySsmEnv "CERT" "CHAIN" "FULL" "KEY" = some (.ok []) :=
  ⟨rfl, rfl⟩

/-- C3 witness: the amended theorem at a concrete force-new configuration
whose single create succeeds. -/
theorem c3_result_count_matches_targets_witness :
    CertificateStorage.plannedTargets (.acm ⟨none, true⟩) ["d.test"] c3Env =
        some [CertificateStorageResult.acm ⟨"arn:new"⟩].length ∧
      ([CertificateStorageResult.acm ⟨"arn:new"⟩] = [] →
        ∃ s, CertificateStorage.acm ⟨none, true⟩ = .acm s ∧
          s.certificate_arns = some [] ∧ s.force_new_import = false) :=
  c3_result_count_matches_targets (.acm ⟨none, true⟩) ["d.test"] c3Env anySsmEnv
    "CERT" "CHAIN" "FULL" "KEY" (fun l => List.Perm.refl (List.range l.length))
    _ rfl

end LetsEncryptCertsAws
